import Mathlib

/-!
Shallow embedding of the real-time object-detection pipeline in
`src/project_context/model.py` (letterbox preprocessing, tensor
quantization, detection post-processing, and the threaded inference
loop), together with theorems settling the specification claims.

Python floats are modelled as rationals (every numeric literal appearing
in the source — 255.0, 0.5, 127.5, 0.0078125 — is exactly representable
in binary floating point, and every claim checked here is robust to this
idealisation).  Machine integers are `ℤ`/`ℕ`; fallible code returns
`Except`.
-/

namespace PiDetect

/-- Python `int(q)` on a float: truncation toward zero. -/
def pyInt (q : ℚ) : ℤ := if 0 ≤ q then ⌊q⌋ else ⌈q⌉

/-- numpy `.round()`: round half to even (banker's rounding). -/
def npRound (q : ℚ) : ℤ :=
  if q - ⌊q⌋ < 1 / 2 then ⌊q⌋
  else if 1 / 2 < q - ⌊q⌋ then ⌊q⌋ + 1
  else if ⌊q⌋ % 2 = 0 then ⌊q⌋ else ⌊q⌋ + 1

/-- numpy `.clip(lo, hi)` on an integer-valued array element. -/
def clipI (lo hi v : ℤ) : ℤ := min hi (max lo v)

/-- numpy `.clip(lo, hi)` on a float array element. -/
def clipQ (lo hi v : ℚ) : ℚ := min hi (max lo v)

/-- Errors a pipeline cycle can raise.  `zeroDivision` is Python's
`ZeroDivisionError` (raised by `new_w / w` on a zero-sized image);
`inferenceFailure` stands for any exception out of the interpreter
(`set_tensor`/`invoke`), e.g. a shape mismatch or an engine fault. -/
inductive PyErr
  | zeroDivision
  | inferenceFailure
deriving DecidableEq, Repr

/-- Result record of `letterbox` (model.py lines 68-84): the scale, the
resized dimensions `nw × nh`, the paste offsets `left`/`top`, and the
allocated canvas dimensions (`np.zeros((new_h, new_w, 3))`). -/
structure LetterboxResult where
  scale : ℚ
  nw : ℤ
  nh : ℤ
  left : ℤ
  top : ℤ
  canvas_w : ℕ
  canvas_h : ℕ
deriving DecidableEq, Repr

/-- model.py lines 68-84, geometry part.  `h`/`w` come from `img.shape`
(hence naturals: numpy shapes are never negative); `new_w`/`new_h` are
the detector's input dimensions.  For a zero-sized image the very first
line, `scale = min(new_w / w, new_h / h)`, raises `ZeroDivisionError`;
otherwise `nw, nh = int(w * scale), int(h * scale)` truncates and the
offsets are the Python floor divisions `(new_h - nh) // 2`,
`(new_w - nw) // 2`. -/
def letterbox (h w new_w new_h : ℕ) : Except PyErr LetterboxResult :=
  if h = 0 ∨ w = 0 then .error .zeroDivision
  else
    let scale : ℚ := min ((new_w : ℚ) / w) ((new_h : ℚ) / h)
    let nw : ℤ := pyInt (w * scale)
    let nh : ℤ := pyInt (h * scale)
    let top : ℤ := ((new_h : ℤ) - nh).fdiv 2
    let left : ℤ := ((new_w : ℤ) - nw).fdiv 2
    .ok ⟨scale, nw, nh, left, top, new_w, new_h⟩

/-- model.py lines 80-83: `canvas = np.zeros((new_h, new_w, 3), ...)`
then `canvas[top:top+nh, left:left+nw] = resized`.  The externally
interpolated `nh × nw` image (`cv2.resize` / PIL) is abstracted as the
pixel function `resized`; a pixel is an RGB triple.  Pixels outside the
pasted slice keep their `np.zeros` value. -/
def letterboxCanvas (r : LetterboxResult) (resized : ℤ → ℤ → ℕ × ℕ × ℕ)
    (y x : ℤ) : ℕ × ℕ × ℕ :=
  if r.top ≤ y ∧ y < r.top + r.nh ∧ r.left ≤ x ∧ x < r.left + r.nw then
    resized (y - r.top) (x - r.left)
  else (0, 0, 0)

/-- The three detector input dtypes handled by `quantize_input`
(model.py lines 86-103; the final `x.astype(in_dtype)` catch-all is
unreachable for these three). -/
inductive NpDtype
  | float32
  | uint8
  | int8
deriving DecidableEq, Repr

/-- One output element of `quantize_input`, tagged with its numpy dtype. -/
inductive QVal
  | f32 (v : ℚ)
  | u8 (v : ℤ)
  | i8 (v : ℤ)
deriving DecidableEq, Repr

/-- model.py lines 86-103, per element (every operation in the source is
elementwise).  `x` is one raw 8-bit sample of the letterboxed canvas.
The float literals `127.5` and `0.0078125` of the source are exact in
binary floating point, hence exact here. -/
def quantize_input (x : ℕ) (in_dtype : NpDtype) (in_scale : ℚ) (in_zero : ℤ) :
    QVal :=
  match in_dtype with
  | .float32 => .f32 ((x : ℚ) / 255)
  | .uint8 =>
      if 0 < in_scale then
        .u8 (clipI 0 255 (npRound ((x : ℚ) / 255 / in_scale + (in_zero : ℚ))))
      else
        .u8 (x : ℤ)
  | .int8 =>
      if 0 < in_scale then
        .i8 (clipI (-128) 127 (npRound ((x : ℚ) / 255 / in_scale + (in_zero : ℚ))))
      else
        .i8 (clipI (-128) 127
          (npRound (clipQ (-1) 1 (((x : ℚ) - 127.5) / 127.5) / 0.0078125)))

/-- model.py lines 170-177: class index to label string.  `labels[c]`
when the 0-based lookup is in range, `labels[c-1]` when the 1-based one
is, else the synthetic placeholder `f"id:{c}"`. -/
def resolveLabel (labels : List String) (c : ℤ) : String :=
  if 0 ≤ c ∧ c < (labels.length : ℤ) then labels.getD c.toNat ""
  else if 1 ≤ c ∧ c ≤ (labels.length : ℤ) then labels.getD (c - 1).toNat ""
  else "id:" ++ toString c

/-- The detector's four parallel output arrays (model.py lines 160-163):
`boxes[i] = (ymin, xmin, ymax, xmax)` normalized to `[0,1]`, a class
index, a confidence score, and the valid-detection count. -/
structure RawOut where
  boxes : ℕ → ℚ × ℚ × ℚ × ℚ
  classes : ℕ → ℤ
  scores : ℕ → ℚ
  count : ℕ

/-- One published detection (an element of `dets`, model.py line 191). -/
structure Detection where
  box : ℤ × ℤ × ℤ × ℤ
  name : String
  score : ℚ
deriving DecidableEq, Repr

instance : Inhabited Detection := ⟨⟨(0, 0, 0, 0), "", 0⟩⟩

/-- model.py lines 184-185, one axis of the de-letterbox step: subtract
the paste offset, divide by the scale. -/
def deLetterbox (scale : ℚ) (off : ℤ) (p : ℚ) : ℚ := (p - (off : ℚ)) / scale

/-- model.py lines 179-188: scale the normalized box to input pixels,
invert the letterbox per axis, truncate with `int(...)`, and clamp each
coordinate into `[0, w-1] × [0, h-1]` of the original frame. -/
def clampedBox (in_w in_h : ℕ) (scale : ℚ) (left top : ℤ) (w h : ℕ)
    (box : ℚ × ℚ × ℚ × ℚ) : ℤ × ℤ × ℤ × ℤ :=
  let ymin := box.1
  let xmin := box.2.1
  let ymax := box.2.2.1
  let xmax := box.2.2.2
  let x1 := pyInt (deLetterbox scale left (xmin * in_w))
  let y1 := pyInt (deLetterbox scale top (ymin * in_h))
  let x2 := pyInt (deLetterbox scale left (xmax * in_w))
  let y2 := pyInt (deLetterbox scale top (ymax * in_h))
  (max 0 (min ((w : ℤ) - 1) x1), max 0 (min ((h : ℤ) - 1) y1),
   max 0 (min ((w : ℤ) - 1) x2), max 0 (min ((h : ℤ) - 1) y2))

/-- model.py lines 170-191: everything the loop body does to raw
detection data after the score gate — label resolution, box inversion
and clamping, and the degenerate-box drop `if x2 <= x1 or y2 <= y1`. -/
def detBody (labels : List String) (in_w in_h : ℕ) (scale : ℚ) (left top : ℤ)
    (w h : ℕ) (box : ℚ × ℚ × ℚ × ℚ) (c : ℤ) (s : ℚ) : Option Detection :=
  let name := resolveLabel labels c
  let b := clampedBox in_w in_h scale left top w h box
  if b.2.2.1 ≤ b.1 ∨ b.2.2.2 ≤ b.2.1 then none
  else some ⟨b, name, s⟩

/-- model.py lines 167-191, one iteration of `for i in range(count)`:
drop when `scores[i] < score_thresh`, otherwise run the body. -/
def processDet (labels : List String) (thresh : ℚ) (in_w in_h : ℕ)
    (scale : ℚ) (left top : ℤ) (w h : ℕ) (raw : RawOut) (i : ℕ) :
    Option Detection :=
  if raw.scores i < thresh then none
  else detBody labels in_w in_h scale left top w h (raw.boxes i)
    (raw.classes i) (raw.scores i)

/-- model.py lines 165-192: the `dets` list published as `detections`,
built by the loop `for i in range(count)` in index order. -/
def detection_postprocess (labels : List String) (thresh : ℚ) (in_w in_h : ℕ)
    (scale : ℚ) (left top : ℤ) (w h : ℕ) (raw : RawOut) : List Detection :=
  (List.range raw.count).filterMap
    (processDet labels thresh in_w in_h scale left top w h raw)

/-- One captured frame; only its dimensions matter to the control flow
of a cycle (pixel content flows through the total functions
`letterboxCanvas`/`quantize_input`, which cannot raise). -/
structure Frame where
  h : ℕ
  w : ℕ
deriving DecidableEq, Repr

/-- The fixed context of `detection_loop`: the label table, the score
threshold, the detector input dimensions, and the inference backend
(`set_tensor`/`invoke`/`get_tensor`), which may raise. -/
structure Env where
  labels : List String
  thresh : ℚ
  in_w : ℕ
  in_h : ℕ
  infer : Frame → Except PyErr RawOut

/-- One pipeline cycle of `detection_loop` (model.py lines 152-192):
letterbox, quantize, invoke the detector, post-process.  Each fallible
stage propagates its exception. -/
def runCycle (env : Env) (f : Frame) : Except PyErr (List Detection) := do
  let lb ← letterbox f.h f.w env.in_w env.in_h
  let raw ← env.infer f
  .ok (detection_postprocess env.labels env.thresh env.in_w env.in_h
    lb.scale lb.left lb.top f.w f.h raw)

/-- model.py lines 143-196: the `while running` loop of the inference
thread, run over the stream of frames it picks up.  The source has no
try/except anywhere in the loop body, so an exception raised by any
cycle escapes the loop (terminating the thread) instead of skipping to
the next cycle; the embedding mirrors that by propagating the first
`Except.error` and collects each cycle's published detection list. -/
def detection_loop (env : Env) : List Frame → Except PyErr (List (List Detection))
  | [] => .ok []
  | f :: rest => do
    let dets ← runCycle env f
    let more ← detection_loop env rest
    .ok (dets :: more)

/-- The affine int8 quantization transform as the spec words it
(normalize to `[0,1]`, divide by the scale, add the zero-point, round,
clip to `[-128,127]`), for comparison with the `in_scale > 0` branch of
`quantize_input`. -/
def int8AffineSpec (x s : ℚ) (z : ℤ) : ℤ :=
  clipI (-128) 127 (npRound (x / 255 / s + (z : ℚ)))

/-- The documented int8 fallback transform as the spec words it: center
the input at `127.5 = 255/2`, scale to `[-1,1]`, divide by the fixed
default scale `0.0078125 = 1/128`, round, clip to `[-128,127]`; for
comparison with the fallback branch of `quantize_input`. -/
def int8FallbackSpec (x : ℚ) : ℤ :=
  clipI (-128) 127 (npRound (clipQ (-1) 1 ((x - 255 / 2) / (255 / 2)) / (1 / 128)))

/-! ### Helper lemmas -/

theorem pyInt_of_nonneg {q : ℚ} (h : 0 ≤ q) : pyInt q = ⌊q⌋ := if_pos h

theorem clipI_le (lo hi v : ℤ) : clipI lo hi v ≤ hi := min_le_left _ _

theorem le_clipI (lo hi v : ℤ) (h : lo ≤ hi) : lo ≤ clipI lo hi v :=
  le_min h (le_max_left _ _)

theorem letterbox_eq (h w new_w new_h : ℕ) (hh : h ≠ 0) (hw : w ≠ 0) :
    letterbox h w new_w new_h = .ok
      { scale := min ((new_w : ℚ) / w) ((new_h : ℚ) / h)
        nw := ⌊(w : ℚ) * min ((new_w : ℚ) / w) ((new_h : ℚ) / h)⌋
        nh := ⌊(h : ℚ) * min ((new_w : ℚ) / w) ((new_h : ℚ) / h)⌋
        left := ((new_w : ℤ) -
          ⌊(w : ℚ) * min ((new_w : ℚ) / w) ((new_h : ℚ) / h)⌋).fdiv 2
        top := ((new_h : ℤ) -
          ⌊(h : ℚ) * min ((new_w : ℚ) / w) ((new_h : ℚ) / h)⌋).fdiv 2
        canvas_w := new_w
        canvas_h := new_h } := by
  have hs : (0 : ℚ) ≤ min ((new_w : ℚ) / w) ((new_h : ℚ) / h) :=
    le_min (by positivity) (by positivity)
  rw [letterbox, if_neg (by simp [hh, hw])]
  simp only [pyInt_of_nonneg (mul_nonneg (by positivity : (0 : ℚ) ≤ (w : ℚ)) hs),
    pyInt_of_nonneg (mul_nonneg (by positivity : (0 : ℚ) ≤ (h : ℚ)) hs)]

/-! ### Claim theorems -/

/-- Claim C8: on a zero-sized source image `letterbox` fails with an
error (in the source, the division `new_w / w` raises
`ZeroDivisionError`, the code's realization of the spec's
`InvalidInput` for a malformed zero-sized frame) and never returns a
canvas.  Negative dimensions are unrepresentable: numpy shapes are
naturals. -/
theorem c8_letterbox_zero_dims (h w new_w new_h : ℕ) (hz : h = 0 ∨ w = 0) :
    letterbox h w new_w new_h = .error .zeroDivision
  ∧ ∀ r : LetterboxResult, letterbox h w new_w new_h ≠ .ok r := by
  have he : letterbox h w new_w new_h = .error .zeroDivision := by
    rw [letterbox, if_pos hz]
  exact ⟨he, fun r hok => by rw [he] at hok; exact Except.noConfusion hok⟩

/-- Witness for C8 at a concrete zero-height image. -/
theorem c8_letterbox_zero_dims_witness :
    letterbox 0 640 320 320 = .error .zeroDivision :=
  (c8_letterbox_zero_dims 0 640 320 320 (Or.inl rfl)).1

/-- Claim C10: for positive source dimensions the letterbox paste stays
inside the canvas: `0 ≤ nw ≤ target_w`, `0 ≤ nh ≤ target_h`,
`left, top ≥ 0`, `left + nw ≤ target_w`, `top + nh ≤ target_h`. -/
theorem c10_paste_in_bounds (h w new_w new_h : ℕ) (r : LetterboxResult)
    (hh : 1 ≤ h) (hw : 1 ≤ w)
    (hr : letterbox h w new_w new_h = .ok r) :
    0 ≤ r.nw ∧ 0 ≤ r.nh ∧ r.nw ≤ (new_w : ℤ) ∧ r.nh ≤ (new_h : ℤ)
  ∧ 0 ≤ r.left ∧ 0 ≤ r.top
  ∧ r.left + r.nw ≤ (new_w : ℤ) ∧ r.top + r.nh ≤ (new_h : ℤ) := by
  rw [letterbox_eq h w new_w new_h (by omega) (by omega)] at hr
  injection hr with hr
  subst hr
  dsimp only
  set s : ℚ := min ((new_w : ℚ) / w) ((new_h : ℚ) / h) with hs_def
  have hw0 : (0 : ℚ) < (w : ℚ) := by exact_mod_cast hw
  have hh0 : (0 : ℚ) < (h : ℚ) := by exact_mod_cast hh
  have hs : (0 : ℚ) ≤ s := le_min (by positivity) (by positivity)
  have hnw_nonneg : 0 ≤ ⌊(w : ℚ) * s⌋ :=
    Int.floor_nonneg.mpr (mul_nonneg hw0.le hs)
  have hnh_nonneg : 0 ≤ ⌊(h : ℚ) * s⌋ :=
    Int.floor_nonneg.mpr (mul_nonneg hh0.le hs)
  have hwle : (w : ℚ) * s ≤ (new_w : ℚ) := by
    calc (w : ℚ) * s ≤ (w : ℚ) * ((new_w : ℚ) / w) :=
          mul_le_mul_of_nonneg_left (min_le_left _ _) hw0.le
    _ = (new_w : ℚ) := by field_simp
  have hhle : (h : ℚ) * s ≤ (new_h : ℚ) := by
    calc (h : ℚ) * s ≤ (h : ℚ) * ((new_h : ℚ) / h) :=
          mul_le_mul_of_nonneg_left (min_le_right _ _) hh0.le
    _ = (new_h : ℚ) := by field_simp
  have hnw_le : ⌊(w : ℚ) * s⌋ ≤ (new_w : ℤ) := by
    have := Int.floor_mono hwle
    rwa [Int.floor_natCast] at this
  have hnh_le : ⌊(h : ℚ) * s⌋ ≤ (new_h : ℤ) := by
    have := Int.floor_mono hhle
    rwa [Int.floor_natCast] at this
  have hleft_nonneg : 0 ≤ ((new_w : ℤ) - ⌊(w : ℚ) * s⌋).fdiv 2 :=
    Int.fdiv_nonneg (by omega) (by norm_num)
  have htop_nonneg : 0 ≤ ((new_h : ℤ) - ⌊(h : ℚ) * s⌋).fdiv 2 :=
    Int.fdiv_nonneg (by omega) (by norm_num)
  have hleft_le : ((new_w : ℤ) - ⌊(w : ℚ) * s⌋).fdiv 2 ≤ (new_w : ℤ) - ⌊(w : ℚ) * s⌋ := by
    rw [Int.fdiv_eq_ediv _ (by norm_num)]
    exact Int.ediv_le_self _ (by omega)
  have htop_le : ((new_h : ℤ) - ⌊(h : ℚ) * s⌋).fdiv 2 ≤ (new_h : ℤ) - ⌊(h : ℚ) * s⌋ := by
    rw [Int.fdiv_eq_ediv _ (by norm_num)]
    exact Int.ediv_le_self _ (by omega)
  refine ⟨hnw_nonneg, hnh_nonneg, hnw_le, hnh_le, hleft_nonneg, htop_nonneg, ?_, ?_⟩
  · omega
  · omega

/-- Witness for C10 on a 2×3 image letterboxed into a 4×4 canvas. -/
theorem c10_paste_in_bounds_witness :
    (0 : ℤ) ≤ 4 ∧ (0 : ℤ) ≤ 2 ∧ (4 : ℤ) ≤ 4 ∧ (2 : ℤ) ≤ 4
  ∧ (0 : ℤ) ≤ 0 ∧ (0 : ℤ) ≤ 1 ∧ (0 : ℤ) + 4 ≤ 4 ∧ (1 : ℤ) + 2 ≤ 4 := by
  have H := c10_paste_in_bounds 2 3 4 4 ⟨4/3, 4, 2, 0, 1, 4, 4⟩
    (by norm_num) (by norm_num) (by norm_num [letterbox, pyInt])
  exact H

/-- Counterexample to claim C4 as stated: for a 2×3 source letterboxed
into a 4×4 canvas the code resizes the height to `int(2 · 4/3) = 2`,
not `round(8/3) = 3`, and centers with the integer offset
`top = (4 - 2) // 2 = 1`, not the exact real `(4 - 2·(4/3))/2 = 2/3`. -/
theorem c4_counterexample :
    letterbox 2 3 4 4 = .ok ⟨4/3, 4, 2, 0, 1, 4, 4⟩
  ∧ min ((4 : ℚ) / 3) ((4 : ℚ) / 2) = 4 / 3
  ∧ round ((2 : ℚ) * (4 / 3)) ≠ (2 : ℤ)
  ∧ ((4 : ℚ) - 2 * (4 / 3)) / 2 ≠ ((1 : ℤ) : ℚ) := by
  refine ⟨?_, by norm_num, by norm_num [round_eq], by norm_num⟩
  norm_num [letterbox, pyInt]

/-- Claim C4 (amended): for positive source dimensions, `letterbox`
computes `scale = min(target_w/w, target_h/h)`, resizes to the
truncated `(int(w·scale), int(h·scale))` — truncation toward zero, not
`round` — allocates a zero-filled canvas of exactly
`target_w × target_h`, pastes at the integer offsets
`left = (target_w - nw) // 2` and `top = (target_h - nh) // 2` (floor
division of the leftover, not the exact real `(target_w - w·scale)/2`),
and leaves every pixel outside the pasted region zero. -/
theorem c4_letterbox_truncation_geometry (h w new_w new_h : ℕ)
    (r : LetterboxResult) (resized : ℤ → ℤ → ℕ × ℕ × ℕ)
    (hh : 1 ≤ h) (hw : 1 ≤ w)
    (hr : letterbox h w new_w new_h = .ok r) :
    r.scale = min ((new_w : ℚ) / w) ((new_h : ℚ) / h)
  ∧ r.nw = ⌊(w : ℚ) * r.scale⌋
  ∧ r.nh = ⌊(h : ℚ) * r.scale⌋
  ∧ r.left = ((new_w : ℤ) - r.nw).fdiv 2
  ∧ r.top = ((new_h : ℤ) - r.nh).fdiv 2
  ∧ r.canvas_w = new_w ∧ r.canvas_h = new_h
  ∧ (∀ y x : ℤ,
      ¬(r.top ≤ y ∧ y < r.top + r.nh ∧ r.left ≤ x ∧ x < r.left + r.nw) →
      letterboxCanvas r resized y x = (0, 0, 0)) := by
  rw [letterbox_eq h w new_w new_h (by omega) (by omega)] at hr
  injection hr with hr
  subst hr
  refine ⟨rfl, rfl, rfl, rfl, rfl, rfl, rfl, ?_⟩
  intro y x hout
  rw [letterboxCanvas, if_neg hout]

/-- Witness for the amended C4 on a 2×3 image into a 4×4 canvas: the
scale is `4/3` and a pixel left of the pasted column range is zero. -/
theorem c4_letterbox_truncation_geometry_witness :
    (4 : ℚ) / 3 = min ((4 : ℚ) / 3) ((4 : ℚ) / 2)
  ∧ letterboxCanvas ⟨4/3, 4, 2, 0, 1, 4, 4⟩ (fun _ _ => (9, 9, 9)) 0 0 = (0, 0, 0) := by
  have H := c4_letterbox_truncation_geometry 2 3 4 4 ⟨4/3, 4, 2, 0, 1, 4, 4⟩
    (fun _ _ => (9, 9, 9)) (by norm_num) (by norm_num) (by norm_num [letterbox, pyInt])
  exact ⟨H.1, H.2.2.2.2.2.2.2 0 0 (by norm_num)⟩

/-- Claim C5: the letterbox mapping is invertible.  With the returned
`(scale, left, top)` the post-processor's de-letterbox step
`(p - offset)/scale` inverts `q ↦ q·scale + offset` exactly, and the
four corners of the pasted region `[left, left+nw] × [top, top+nh]` map
back to the source corners `(0, 0)` and `(w, h)` within rounding
tolerance: the low corners exactly, the high corners within `1/scale`
(one canvas pixel expressed in source pixels, the slack created by the
truncation `nw = int(w·scale)`). -/
theorem c5_letterbox_invertible (h w new_w new_h : ℕ) (r : LetterboxResult)
    (hh : h ≠ 0) (hw : w ≠ 0) (hnw : new_w ≠ 0) (hnh : new_h ≠ 0)
    (hr : letterbox h w new_w new_h = .ok r) :
    0 < r.scale
  ∧ (∀ (off : ℤ) (q : ℚ), deLetterbox r.scale off (q * r.scale + (off : ℚ)) = q)
  ∧ deLetterbox r.scale r.left (r.left : ℚ) = 0
  ∧ deLetterbox r.scale r.top (r.top : ℚ) = 0
  ∧ (w : ℚ) - 1 / r.scale < deLetterbox r.scale r.left ((r.left : ℚ) + (r.nw : ℚ))
  ∧ deLetterbox r.scale r.left ((r.left : ℚ) + (r.nw : ℚ)) ≤ (w : ℚ)
  ∧ (h : ℚ) - 1 / r.scale < deLetterbox r.scale r.top ((r.top : ℚ) + (r.nh : ℚ))
  ∧ deLetterbox r.scale r.top ((r.top : ℚ) + (r.nh : ℚ)) ≤ (h : ℚ) := by
  rw [letterbox_eq h w new_w new_h hh hw] at hr
  injection hr with hr
  subst hr
  dsimp only
  set s : ℚ := min ((new_w : ℚ) / w) ((new_h : ℚ) / h) with hs_def
  have hw0 : (0 : ℚ) < (w : ℚ) := by positivity
  have hh0 : (0 : ℚ) < (h : ℚ) := by positivity
  have hs : (0 : ℚ) < s :=
    lt_min (div_pos (by positivity) hw0) (div_pos (by positivity) hh0)
  have hinv : ∀ (off : ℤ) (q : ℚ),
      deLetterbox s off (q * s + (off : ℚ)) = q := by
    intro off q
    rw [deLetterbox, add_sub_cancel_right, mul_div_assoc, div_self hs.ne', mul_one]
  have hcorner : ∀ (d : ℕ) (off : ℤ), (0 : ℚ) < (d : ℚ) →
      ((d : ℚ) - 1 / s < deLetterbox s off ((off : ℚ) + (⌊(d : ℚ) * s⌋ : ℚ))
        ∧ deLetterbox s off ((off : ℚ) + (⌊(d : ℚ) * s⌋ : ℚ)) ≤ (d : ℚ)) := by
    intro d off hd
    have hde : deLetterbox s off ((off : ℚ) + (⌊(d : ℚ) * s⌋ : ℚ))
        = (⌊(d : ℚ) * s⌋ : ℚ) / s := by
      rw [deLetterbox, add_comm, add_sub_cancel_right]
    constructor
    · rw [hde]
      have hlt : (d : ℚ) * s - 1 < (⌊(d : ℚ) * s⌋ : ℚ) := Int.sub_one_lt_floor _
      have h2 : ((d : ℚ) * s - 1) / s < (⌊(d : ℚ) * s⌋ : ℚ) / s :=
        (div_lt_div_iff_of_pos_right hs).mpr hlt
      have h3 : ((d : ℚ) * s - 1) / s = (d : ℚ) - 1 / s := by
        field_simp
      rwa [h3] at h2
    · rw [hde]
      have hle : (⌊(d : ℚ) * s⌋ : ℚ) ≤ (d : ℚ) * s := Int.floor_le _
      have h2 : (⌊(d : ℚ) * s⌋ : ℚ) / s ≤ (d : ℚ) * s / s :=
        (div_le_div_iff_of_pos_right hs).mpr hle
      have h3 : (d : ℚ) * s / s = (d : ℚ) := by
        field_simp
      rwa [h3] at h2
  have hcw := hcorner w (((new_w : ℤ) - ⌊(w : ℚ) * s⌋).fdiv 2) hw0
  have hch := hcorner h (((new_h : ℤ) - ⌊(h : ℚ) * s⌋).fdiv 2) hh0
  refine ⟨hs, hinv, ?_, ?_, hcw.1, hcw.2, hch.1, hch.2⟩
  · rw [deLetterbox, sub_self, zero_div]
  · rw [deLetterbox, sub_self, zero_div]

/-- Witness for C5 on a 2×3 image into a 4×4 canvas: scale `4/3` is
positive, an interior point round-trips exactly, and the high x-corner
of the pasted region maps back to at most `w = 3`. -/
theorem c5_letterbox_invertible_witness :
    (0 : ℚ) < 4 / 3
  ∧ deLetterbox (4 / 3) 7 (5 * (4 / 3) + ((7 : ℤ) : ℚ)) = 5
  ∧ deLetterbox (4 / 3) 0 (((0 : ℤ) : ℚ) + ((4 : ℤ) : ℚ)) ≤ ((3 : ℕ) : ℚ) := by
  have H := c5_letterbox_invertible 2 3 4 4 ⟨4/3, 4, 2, 0, 1, 4, 4⟩
    (by norm_num) (by norm_num) (by norm_num) (by norm_num)
    (by norm_num [letterbox, pyInt])
  exact ⟨H.1, H.2.1 7 5, H.2.2.2.2.2.1⟩

/-- Structural fact used for C1: a `filterMap` is the order-preserving
map of its defined positions. -/
theorem filterMap_eq_map_filter {α β : Type} [Inhabited β] (f : α → Option β) :
    ∀ l : List α, l.filterMap f
      = (l.filter fun a => (f a).isSome).map fun a => (f a).getD default
  | [] => rfl
  | a :: l => by
    cases hfa : f a <;>
      simp [List.filterMap_cons, List.filter_cons, hfa, filterMap_eq_map_filter f l]

/-- Claim C1: the post-processor is a stable, order-preserving filter:
a detection with `scores[i] < threshold` is dropped, one with
`scores[i] ≥ threshold` is eligible (the score gate passes it to the
rest of the body, which can only still drop it as a degenerate box),
and the published list is the in-order map over the kept indices of
`range count` — no re-sorting by score. -/
theorem c1_postprocess_stable_filter (labels : List String) (thresh : ℚ)
    (in_w in_h : ℕ) (scale : ℚ) (left top : ℤ) (w h : ℕ) (raw : RawOut) :
    (∀ i < raw.count, raw.scores i < thresh →
      processDet labels thresh in_w in_h scale left top w h raw i = none)
  ∧ (∀ i < raw.count, thresh ≤ raw.scores i →
      processDet labels thresh in_w in_h scale left top w h raw i
        = detBody labels in_w in_h scale left top w h (raw.boxes i)
            (raw.classes i) (raw.scores i))
  ∧ detection_postprocess labels thresh in_w in_h scale left top w h raw
      = ((List.range raw.count).filter
          (fun i => (processDet labels thresh in_w in_h scale left top w h raw i).isSome)).map
          (fun i => (processDet labels thresh in_w in_h scale left top w h raw i).getD default) := by
  refine ⟨?_, ?_, ?_⟩
  · intro i _ hs
    rw [processDet, if_pos hs]
  · intro i _ hs
    rw [processDet, if_neg (not_lt.mpr hs)]
  · rw [detection_postprocess, filterMap_eq_map_filter]

/-- Witness for C1: a sub-threshold score is dropped. -/
theorem c1_postprocess_stable_filter_witness :
    processDet [] (1/2) 4 4 1 0 0 10 10
      ⟨fun _ => (0, 0, 1, 1), fun _ => 0, fun _ => 0, 1⟩ 0 = none :=
  (c1_postprocess_stable_filter [] (1/2) 4 4 1 0 0 10 10
    ⟨fun _ => (0, 0, 1, 1), fun _ => 0, fun _ => 0, 1⟩).1 0
    (by norm_num) (by norm_num)

/-- Claim C2: label resolution returns `labels[c]` when the 0-based
index is in range, else `labels[c-1]` when the 1-based one is, else the
placeholder `"id:<c>"`; in particular for `labels = ["cat","dog"]`
class 0 is `"cat"`, class 2 is `"dog"` and class 5 is `"id:5"`. -/
theorem c2_label_resolution (labels : List String) (c : ℤ) :
    (0 ≤ c → c < (labels.length : ℤ) →
      resolveLabel labels c = labels.getD c.toNat "")
  ∧ (¬(0 ≤ c ∧ c < (labels.length : ℤ)) → 1 ≤ c → c ≤ (labels.length : ℤ) →
      resolveLabel labels c = labels.getD (c - 1).toNat "")
  ∧ (¬(0 ≤ c ∧ c < (labels.length : ℤ)) →
      ¬(1 ≤ c ∧ c ≤ (labels.length : ℤ)) →
      resolveLabel labels c = "id:" ++ toString c)
  ∧ resolveLabel ["cat", "dog"] 0 = "cat"
  ∧ resolveLabel ["cat", "dog"] 2 = "dog"
  ∧ resolveLabel ["cat", "dog"] 5 = "id:5" := by
  refine ⟨?_, ?_, ?_, by decide, by decide, by decide⟩
  · intro h1 h2
    rw [resolveLabel, if_pos ⟨h1, h2⟩]
  · intro hn h1 h2
    rw [resolveLabel, if_neg hn, if_pos ⟨h1, h2⟩]
  · intro hn1 hn2
    rw [resolveLabel, if_neg hn1, if_neg hn2]

/-- Witness for C2: a 0-based in-range lookup on a three-label table. -/
theorem c2_label_resolution_witness :
    resolveLabel ["cat", "dog", "bird"] 1 = "dog" :=
  ((c2_label_resolution ["cat", "dog", "bird"] 1).1 (by decide)
    (by decide)).trans (by decide)

/-- Bounds on every coordinate produced by the clamp of model.py
lines 187-188. -/
theorem clampedBox_bounds (in_w in_h : ℕ) (scale : ℚ) (left top : ℤ)
    (w h : ℕ) (hw : 1 ≤ w) (hh : 1 ≤ h) (box : ℚ × ℚ × ℚ × ℚ) :
    (0 ≤ (clampedBox in_w in_h scale left top w h box).1
      ∧ (clampedBox in_w in_h scale left top w h box).1 ≤ (w : ℤ) - 1)
  ∧ (0 ≤ (clampedBox in_w in_h scale left top w h box).2.1
      ∧ (clampedBox in_w in_h scale left top w h box).2.1 ≤ (h : ℤ) - 1)
  ∧ (0 ≤ (clampedBox in_w in_h scale left top w h box).2.2.1
      ∧ (clampedBox in_w in_h scale left top w h box).2.2.1 ≤ (w : ℤ) - 1)
  ∧ (0 ≤ (clampedBox in_w in_h scale left top w h box).2.2.2
      ∧ (clampedBox in_w in_h scale left top w h box).2.2.2 ≤ (h : ℤ) - 1) := by
  have hw1 : (0 : ℤ) ≤ (w : ℤ) - 1 := by omega
  have hh1 : (0 : ℤ) ≤ (h : ℤ) - 1 := by omega
  simp only [clampedBox]
  exact ⟨⟨le_max_left _ _, max_le hw1 (min_le_left _ _)⟩,
    ⟨le_max_left _ _, max_le hh1 (min_le_left _ _)⟩,
    ⟨le_max_left _ _, max_le hw1 (min_le_left _ _)⟩,
    ⟨le_max_left _ _, max_le hh1 (min_le_left _ _)⟩⟩

/-- Claim C3: every published detection satisfies the box invariant
`0 ≤ x1 < x2 ≤ w-1`, `0 ≤ y1 < y2 ≤ h-1`, and a raw detection whose
box degenerates after inversion and clamping (`x2 ≤ x1` or `y2 ≤ y1`)
is never published. -/
theorem c3_detection_box_invariant (labels : List String) (thresh : ℚ)
    (in_w in_h : ℕ) (scale : ℚ) (left top : ℤ) (w h : ℕ) (raw : RawOut)
    (hw : 1 ≤ w) (hh : 1 ≤ h) :
    (∀ d ∈ detection_postprocess labels thresh in_w in_h scale left top w h raw,
        0 ≤ d.box.1 ∧ d.box.1 < d.box.2.2.1 ∧ d.box.2.2.1 ≤ (w : ℤ) - 1
      ∧ 0 ≤ d.box.2.1 ∧ d.box.2.1 < d.box.2.2.2 ∧ d.box.2.2.2 ≤ (h : ℤ) - 1)
  ∧ (∀ i : ℕ,
      ((clampedBox in_w in_h scale left top w h (raw.boxes i)).2.2.1
          ≤ (clampedBox in_w in_h scale left top w h (raw.boxes i)).1
        ∨ (clampedBox in_w in_h scale left top w h (raw.boxes i)).2.2.2
          ≤ (clampedBox in_w in_h scale left top w h (raw.boxes i)).2.1) →
      processDet labels thresh in_w in_h scale left top w h raw i = none) := by
  constructor
  · intro d hd
    rw [detection_postprocess] at hd
    obtain ⟨i, -, hi⟩ := List.mem_filterMap.mp hd
    rw [processDet] at hi
    by_cases hsc : raw.scores i < thresh
    · rw [if_pos hsc] at hi
      exact absurd hi (by simp)
    · rw [if_neg hsc, detBody] at hi
      by_cases hdeg :
          (clampedBox in_w in_h scale left top w h (raw.boxes i)).2.2.1
            ≤ (clampedBox in_w in_h scale left top w h (raw.boxes i)).1
          ∨ (clampedBox in_w in_h scale left top w h (raw.boxes i)).2.2.2
            ≤ (clampedBox in_w in_h scale left top w h (raw.boxes i)).2.1
      · rw [if_pos hdeg] at hi
        exact absurd hi (by simp)
      · rw [if_neg hdeg] at hi
        obtain rfl := Option.some.inj hi
        push_neg at hdeg
        have hb := clampedBox_bounds in_w in_h scale left top w h hw hh
          (raw.boxes i)
        exact ⟨hb.1.1, hdeg.1, hb.2.2.1.2, hb.2.1.1, hdeg.2, hb.2.2.2.2⟩
  · intro i hdeg
    rw [processDet]
    by_cases hsc : raw.scores i < thresh
    · rw [if_pos hsc]
    · rw [if_neg hsc, detBody, if_pos hdeg]

/-- Witness for C3: a degenerate zero-area raw box is suppressed. -/
theorem c3_detection_box_invariant_witness :
    processDet [] (1/2) 4 4 1 0 0 10 10
      ⟨fun _ => (0, 0, 0, 0), fun _ => 0, fun _ => 1, 1⟩ 0 = none := by
  have H := (c3_detection_box_invariant [] (1/2) 4 4 1 0 0 10 10
    ⟨fun _ => (0, 0, 0, 0), fun _ => 0, fun _ => 1, 1⟩
    (by norm_num) (by norm_num)).2
  exact H 0 (by norm_num [clampedBox, deLetterbox, pyInt])

/-- Claim C6: the quantizer's output carries the declared dtype's tag
and stays inside its documented bounds for every valid 8-bit sample:
float32 divides by 255 into `[0,1]`; uint8 lands in `[0,255]` and with
unspecified scale passes the byte through unchanged; int8 lands in
`[-128,127]`. -/
theorem c6_quantizer_dtype_contract (x : ℕ) (in_scale : ℚ) (in_zero : ℤ)
    (hx : x ≤ 255) :
    (quantize_input x .float32 in_scale in_zero = .f32 ((x : ℚ) / 255)
      ∧ 0 ≤ (x : ℚ) / 255 ∧ (x : ℚ) / 255 ≤ 1)
  ∧ (∃ v : ℤ, quantize_input x .uint8 in_scale in_zero = .u8 v
      ∧ 0 ≤ v ∧ v ≤ 255)
  ∧ (¬ 0 < in_scale → quantize_input x .uint8 in_scale in_zero = .u8 (x : ℤ))
  ∧ (∃ v : ℤ, quantize_input x .int8 in_scale in_zero = .i8 v
      ∧ -128 ≤ v ∧ v ≤ 127) := by
  have hx255 : (x : ℚ) ≤ 255 := by exact_mod_cast hx
  refine ⟨⟨rfl, by positivity, (div_le_one (by norm_num)).mpr hx255⟩, ?_, ?_, ?_⟩
  · by_cases hs : 0 < in_scale
    · exact ⟨_, by rw [quantize_input, if_pos hs],
        le_clipI _ _ _ (by norm_num), clipI_le _ _ _⟩
    · exact ⟨(x : ℤ), by rw [quantize_input, if_neg hs],
        Int.ofNat_nonneg x, by exact_mod_cast hx⟩
  · intro hs
    rw [quantize_input, if_neg hs]
  · by_cases hs : 0 < in_scale
    · exact ⟨_, by rw [quantize_input, if_pos hs],
        le_clipI _ _ _ (by norm_num), clipI_le _ _ _⟩
    · exact ⟨_, by rw [quantize_input, if_neg hs],
        le_clipI _ _ _ (by norm_num), clipI_le _ _ _⟩

/-- Witness for C6: with unspecified scale the uint8 path is the
identity on the byte. -/
theorem c6_quantizer_dtype_contract_witness :
    quantize_input 200 .uint8 0 0 = .u8 200 :=
  (c6_quantizer_dtype_contract 200 0 0 (by norm_num)).2.2.1 (by norm_num)

/-- Claim C7: the int8 path applies the affine transform (normalize,
divide by scale, add zero-point, round, clip to `[-128,127]`) when
`scale > 0`, and with unspecified (zero) scale applies exactly the
fixed fallback with scale `0.0078125 = 1/128` and center `127.5`;
for a byte input the fallback's inner clip to `[-1,1]` is vacuous and
the whole transform collapses to `clip(round((256·x - 32640)/255))`. -/
theorem c7_int8_quantization (x : ℕ) (in_scale : ℚ) (in_zero : ℤ)
    (hx : x ≤ 255) :
    (0 < in_scale → quantize_input x .int8 in_scale in_zero
      = .i8 (int8AffineSpec (x : ℚ) in_scale in_zero))
  ∧ quantize_input x .int8 0 in_zero = .i8 (int8FallbackSpec (x : ℚ))
  ∧ int8FallbackSpec (x : ℚ)
      = clipI (-128) 127 (npRound ((256 * (x : ℚ) - 32640) / 255)) := by
  have hx255 : (x : ℚ) ≤ 255 := by exact_mod_cast hx
  have hx0 : (0 : ℚ) ≤ (x : ℚ) := by positivity
  refine ⟨?_, ?_, ?_⟩
  · intro hs
    rw [quantize_input, if_pos hs, int8AffineSpec]
  · rw [quantize_input, if_neg (lt_irrefl 0), int8FallbackSpec]
    norm_num
  · rw [int8FallbackSpec]
    have hub : ((x : ℚ) - 255 / 2) / (255 / 2) ≤ 1 :=
      (div_le_one (by norm_num)).mpr (by linarith)
    have hlb : (-1 : ℚ) ≤ ((x : ℚ) - 255 / 2) / (255 / 2) :=
      (le_div_iff₀ (by norm_num)).mpr (by linarith)
    have hcl : clipQ (-1) 1 (((x : ℚ) - 255 / 2) / (255 / 2))
        = ((x : ℚ) - 255 / 2) / (255 / 2) := by
      rw [clipQ, max_eq_right hlb, min_eq_right hub]
    rw [hcl]
    have harg : (((x : ℚ) - 255 / 2) / (255 / 2)) / (1 / 128)
        = (256 * (x : ℚ) - 32640) / 255 := by
      field_simp
      ring
    rw [harg]

/-- Witness for C7: byte 0 under the unspecified-scale fallback maps to
the lowest int8 value. -/
theorem c7_int8_quantization_witness :
    quantize_input 0 .int8 0 5 = .i8 (int8FallbackSpec ((0 : ℕ) : ℚ))
  ∧ int8FallbackSpec ((0 : ℕ) : ℚ) = -128 := by
  have H := c7_int8_quantization 0 0 5 (by norm_num)
  refine ⟨H.2.1, ?_⟩
  rw [H.2.2]
  norm_num [npRound, clipI]

/-- Counterexample to claim C9 as stated: `detection_loop` has no
try/except, so a cycle that raises (here a zero-sized frame, whose
`letterbox` division raises `ZeroDivisionError`) makes the exception
escape the loop — the loop result is the error and the following,
perfectly processable frame is never handled, contradicting "the cycle
is skipped, the loop continues to the next cycle, and the error never
propagates out of the inference loop". -/
theorem c9_counterexample :
    detection_loop
      ⟨[], 1/2, 320, 320,
        fun _ => .ok ⟨fun _ => (0, 0, 1, 1), fun _ => 0, fun _ => 1, 0⟩⟩
      [⟨0, 0⟩, ⟨320, 320⟩] = .error .zeroDivision
  ∧ detection_loop
      ⟨[], 1/2, 320, 320,
        fun _ => .ok ⟨fun _ => (0, 0, 1, 1), fun _ => 0, fun _ => 1, 0⟩⟩
      [⟨320, 320⟩] = .ok [[]] := by
  constructor
  · rfl
  · have hlb : letterbox 320 320 320 320 = .ok ⟨1, 320, 320, 0, 0, 320, 320⟩ := by
      norm_num [letterbox, pyInt]
    simp only [detection_loop, runCycle, hlb, detection_postprocess]
    rfl

/-- Claim C9 (amended): an error raised inside a pipeline cycle is NOT
caught at the inference-loop boundary — the loop body has no handler,
so the first failing cycle aborts the loop with that error and no later
frame is processed.  (The loop runs on a daemon thread, so the ingest
and display side of the process survives, but detection output stops.) -/
theorem c9_cycle_error_aborts_loop (env : Env) (f : Frame)
    (rest : List Frame) (e : PyErr) (hf : runCycle env f = .error e) :
    detection_loop env (f :: rest) = .error e := by
  simp only [detection_loop, hf]
  rfl

/-- Witness for the amended C9: the zero-sized frame aborts the loop. -/
theorem c9_cycle_error_aborts_loop_witness :
    detection_loop
      ⟨[], 1/2, 320, 320,
        fun _ => .ok ⟨fun _ => (0, 0, 1, 1), fun _ => 0, fun _ => 1, 0⟩⟩
      [⟨0, 0⟩] = .error .zeroDivision :=
  c9_cycle_error_aborts_loop _ ⟨0, 0⟩ [] .zeroDivision rfl

end PiDetect
